import Mathlib

/-!
Verification development for the `text_embeddings` batch pipeline.

Shallow embedding of the checkpointed batch processor
(`scripts/embed_and_upload.py`), the tracking-column utilities and
datetime normalization (`utils/data_processing.py`), and the embedding
client (`utils/embeddings.py`).

Modelling conventions:
* a pandas DataFrame is a `List Row`; row labels are list positions
  (the pipeline only ever works with the default RangeIndex, which
  `head`, boolean filtering and `at`-writes all preserve);
* a missing value (NaN/NaT) in a source column is `Option.none`;
* the external world (embedding API, upload API, wall clock) is an
  `Oracle` consulted by row index;
* observable side effects (client calls, checkpoint saves, sleeps) are
  recorded in a trace of `Event`s.
-/

namespace TextEmbeddings

/-- A cell of a source column: `none` models pandas NaN/NaT. -/
abbrev Cell := Option String

/-- One row of the table: the source columns plus the three tracking
columns added by `init_embedding_tracking`
(`embedded_status`, `embedded_error`, `embedded_at`). -/
structure Row where
  cols : List (String × Cell)
  embedded_status : String
  embedded_error : String
  embedded_at : Option Nat
deriving DecidableEq

/-- `FIELD_MAPPING` from `scripts/embed_and_upload.py`: CSV column name
to index field name. -/
def FIELD_MAPPING : List (String × String) :=
  [("Id", "contract_item_id"),
   ("SystemContractNumber", "contract_number"),
   ("SystemContractItemNumber", "contract_item_number"),
   ("ShortText", "item_text"),
   ("Name", "vendor_name"),
   ("NetUnitPrice", "unit_price"),
   ("Currency", "currency"),
   ("ValidityPeriodStartDate", "contract_start"),
   ("ValidityPeriodEndDate", "contract_end")]

/-- `TEXT_COLUMN_TO_EMBED = "ShortText"`. -/
def TEXT_COLUMN_TO_EMBED : String := "ShortText"

/-- `row[TEXT_COLUMN_TO_EMBED]`: the text handed to `get_embedding`.
(A missing column or NaN cell is flattened to `""`; the content is
opaque to the control flow being verified.) -/
def textToEmbed (r : Row) : String :=
  ((r.cols.lookup TEXT_COLUMN_TO_EMBED).join).getD ""

/-- Result of one `get_embedding` call as seen by `process_batch`:
either a vector or the `None` sentinel. -/
inductive EmbedResult where
  | ok (v : List Int)
  | failure
deriving DecidableEq

/-- Result of one `upload_documents` call as seen by `process_batch`:
`True`, `False`, or a raised exception with its `str(e)` text. -/
inductive UploadOutcome where
  | ok
  | rejected
  | exn (msg : String)
deriving DecidableEq

/-- The external world, consulted by row index: embedding result,
upload result, and the wall clock (`datetime.now`). -/
structure Oracle where
  embed : Nat → String → EmbedResult
  upload : Nat → UploadOutcome
  now : Nat → Nat

/-- A document assembled for upload: renamed source fields plus the
embedding vector. -/
structure Document where
  fields : List (String × Cell)
  embedding : List Int
deriving DecidableEq

/-- Python string slicing `s[:n]` (by characters), as used by
`str(e)[:2000]`. -/
def pySlice (s : String) (n : Nat) : String :=
  String.mk (s.data.take n)

/-- Step 2 of the per-row loop: build the document from `FIELD_MAPPING`
(`if csv_col in row.index: ... document[index_field] = value`), then
attach the embedding. -/
def buildDocument (r : Row) (emb : List Int) : Document :=
  { fields := FIELD_MAPPING.filterMap fun p =>
      match r.cols.lookup p.1 with
      | some v => some (p.2, v)
      | none => none
    embedding := emb }

/-- Observable events of a run. -/
inductive Event where
  | embedCall (idx : Nat) (text : String)
  | uploadCall (idx : Nat) (doc : Document)
  | checkpoint (df : List Row)
  | sleepReq
  | sleepBatch
deriving DecidableEq

/-- The configuration `process_batch` reads: truthiness of
`checkpoint_path` and the `checkpoint_every` interval. -/
structure Cfg where
  checkpoint_path : Bool
  checkpoint_every : Nat

/-- Loop state of `process_batch`: the mutable DataFrame, the two
counters, and the event trace. -/
structure BatchState where
  df : List Row
  success_count : Nat
  fail_count : Nat
  trace : List Event
deriving DecidableEq

/-- Status of the row at position `i` (rows outside the table read as
`""`, which never occurs for in-range indices). -/
def statusAt (df : List Row) (i : Nat) : String :=
  ((df.get? i).map Row.embedded_status).getD ""

/-- `pending = df[df["embedded_status"] != "success"]`, kept as the list
of surviving row labels in stable table order. -/
def pendingIdx (df : List Row) : List Nat :=
  (List.range df.length).filter fun i => statusAt df i != "success"

/-- `batch = pending.head(batch_size)`: the row labels processed by one
`process_batch` call. -/
def batchOf (df : List Row) (batch_size : Nat) : List Nat :=
  (pendingIdx df).take batch_size

/-- One iteration of the `for i, (idx, row) in enumerate(batch.iterrows(), 1)`
loop body. Reading the row from the current `df` is equivalent to the
`batch` snapshot: each label is visited once and iterations write only
their own label's tracking fields. Note that the embedding-failure
branch ends in `continue`, which skips both the periodic-checkpoint
block and the rate-limit `time.sleep`. -/
def processOne (ora : Oracle) (cfg : Cfg) (s : BatchState) (idx : Nat) : BatchState :=
  match s.df.get? idx with
  | none => s
  | some row =>
    let text := textToEmbed row
    let s1 : BatchState := { s with trace := s.trace ++ [.embedCall idx text] }
    match ora.embed idx text with
    | .failure =>
      { s1 with
        df := s1.df.set idx { row with
          embedded_status := "failed"
          embedded_error := "Embedding generation failed"
          embedded_at := some (ora.now idx) }
        fail_count := s1.fail_count + 1 }
    | .ok emb =>
      let doc := buildDocument row emb
      let s2 : BatchState := { s1 with trace := s1.trace ++ [.uploadCall idx doc] }
      let s3 : BatchState :=
        match ora.upload idx with
        | .ok =>
          { s2 with
            df := s2.df.set idx { row with
              embedded_status := "success"
              embedded_error := ""
              embedded_at := some (ora.now idx) }
            success_count := s2.success_count + 1 }
        | .rejected =>
          { s2 with
            df := s2.df.set idx { row with
              embedded_status := "failed"
              embedded_error := "Upload to Azure Search failed"
              embedded_at := some (ora.now idx) }
            fail_count := s2.fail_count + 1 }
        | .exn msg =>
          { s2 with
            df := s2.df.set idx { row with
              embedded_status := "failed"
              embedded_error := pySlice msg 2000
              embedded_at := some (ora.now idx) }
            fail_count := s2.fail_count + 1 }
      let processed := s3.success_count + s3.fail_count
      let s4 : BatchState :=
        if cfg.checkpoint_path && (processed % cfg.checkpoint_every == 0) then
          { s3 with trace := s3.trace ++ [.checkpoint s3.df] }
        else s3
      { s4 with trace := s4.trace ++ [.sleepReq] }

/-- `process_batch(df, start_idx, batch_size, checkpoint_path,
checkpoint_every)`: filter to pending, early-return when empty, fold
the per-row loop over the batch, then the unconditional final
checkpoint save. -/
def process_batch (ora : Oracle) (cfg : Cfg) (batch_size : Nat)
    (df : List Row) : BatchState :=
  if (pendingIdx df).length = 0 then
    { df := df, success_count := 0, fail_count := 0, trace := [] }
  else
    let s := (batchOf df batch_size).foldl (processOne ora cfg)
      { df := df, success_count := 0, fail_count := 0, trace := [] }
    if cfg.checkpoint_path then
      { s with trace := s.trace ++ [.checkpoint s.df] }
    else s

/-- `remaining = (df["embedded_status"] != "success").sum()`. -/
def remainingCount (df : List Row) : Nat :=
  (pendingIdx df).length

/-- The outer `while True` loop of `main` (lines 263-294), with fuel
bounding the number of batch iterations (the real loop runs until no
row remains or forever). `batchNum` indexes the oracle so that retried
rows may see different outcomes across batches. Returns the final
table and the concatenated trace (inter-batch sleeps included). -/
def main_loop (oras : Nat → Oracle) (cfg : Cfg) (batch_size : Nat) :
    Nat → Nat → List Row → List Row × List Event
  | 0, _, df => (df, [])
  | fuel + 1, batchNum, df =>
    if remainingCount df = 0 then (df, [])
    else
      let s := process_batch (oras batchNum) cfg batch_size df
      if remainingCount s.df = 0 then (s.df, s.trace)
      else
        let rest := main_loop oras cfg batch_size fuel (batchNum + 1) s.df
        (rest.1, s.trace ++ Event.sleepBatch :: rest.2)

/-- A row as it stands before `init_embedding_tracking`: tracking cells
are optional (`none` = NaN, or the column is absent altogether). -/
structure RawRow where
  cols : List (String × Cell)
  status : Option String
  error : Option String
  at_ : Option Nat
deriving DecidableEq

/-- A table before `init_embedding_tracking`: its rows plus whether each
tracking column is present (`STATUS_COL in df.columns` etc.). When a
column is absent every row's cell for it is `none`. -/
structure RawTable where
  rows : List RawRow
  statusCol : Bool
  errorCol : Bool
  atCol : Bool
deriving DecidableEq

/-- `init_embedding_tracking` (`utils/data_processing.py` 79-107):
add each missing tracking column (`"pending"` / `""` / NaT), then
`fillna` the status and error columns (not the timestamp column). -/
def init_embedding_tracking (t : RawTable) : List Row :=
  t.rows.map fun r =>
    let s := if t.statusCol then r.status else some "pending"
    let e := if t.errorCol then r.error else some ""
    let a := if t.atCol then r.at_ else none
    { cols := r.cols
      embedded_status := s.getD "pending"
      embedded_error := e.getD ""
      embedded_at := a }

/-- `load_checkpoint` (`utils/data_processing.py` 123-148): `None` when
no file exists at the path, otherwise the parsed table. `fs` is the
file system, mapping a path to the table stored there, if any. -/
def load_checkpoint (fs : String → Option RawTable) (checkpoint_path : String) :
    Option RawTable :=
  match fs checkpoint_path with
  | none => none
  | some t => some t

/-- The data-loading phase of `main` (`scripts/embed_and_upload.py`
220-242): with `--resume`, try the checkpoint and fall back to the
configured source when it is absent; without `--resume`, load from the
source directly. `sourceTable` stands for the CSV or Celonis load. -/
def main_load_data (resume : Bool) (fs : String → Option RawTable)
    (checkpoint_path : String) (sourceTable : RawTable) : RawTable :=
  let df : Option RawTable :=
    if resume then load_checkpoint fs checkpoint_path else none
  match df with
  | some t => t
  | none => sourceTable

/-- A JSON value, for modelling `response.json()`. -/
inductive Json where
  | null
  | str (s : String)
  | num (n : Int)
  | arr (xs : List Json)
  | obj (fields : List (String × Json))

/-- The body of an HTTP response: either text that is not valid JSON
(so `response.json()` raises `requests.exceptions.JSONDecodeError`, a
`RequestException` subclass) or a parsed JSON value. -/
inductive Body where
  | invalidJson
  | json (j : Json)

/-- What `requests.post` produces: a raised `RequestException`
(connection error, timeout, ...) or a response with a status code and
body. -/
inductive HttpResponse where
  | transportError (msg : String)
  | response (status : Nat) (body : Body)

/-- Outcome of running a Python function: a returned value, or an
exception escaping to the caller. -/
inductive PyResult (α : Type) where
  | ok (a : α)
  | raised (exn : String)

/-- Python `j["data"]`-style subscripting on a JSON value: `KeyError`
when the key is missing, `TypeError` when the value is not an object. -/
def jsonGetKey (j : Json) (k : String) : PyResult Json :=
  match j with
  | .obj fs =>
    match fs.lookup k with
    | some v => .ok v
    | none => .raised "KeyError"
  | _ => .raised "TypeError"

/-- Python `j[0]`-style subscripting on a JSON value: `IndexError` when
out of range, `TypeError` when the value is not an array. -/
def jsonGetIdx (j : Json) (n : Nat) : PyResult Json :=
  match j with
  | .arr xs =>
    match xs.get? n with
    | some v => .ok v
    | none => .raised "IndexError"
  | _ => .raised "TypeError"

/-- `get_embedding` (`utils/embeddings.py` 44-58) as a function of the
HTTP outcome. The `try` block catches exactly
`requests.exceptions.RequestException`: transport errors, the
`HTTPError` from `raise_for_status()` (status >= 400), and the
`JSONDecodeError` from `response.json()`. The subscripting
`response.json()["data"][0]["embedding"]` raises `KeyError` /
`IndexError` / `TypeError`, which are not `RequestException`s and
escape to the caller. -/
def get_embedding (resp : HttpResponse) : PyResult (Option Json) :=
  match resp with
  | .transportError _ => .ok none
  | .response status body =>
    if 400 ≤ status then .ok none
    else
      match body with
      | .invalidJson => .ok none
      | .json j =>
        match jsonGetKey j "data" with
        | .raised e => .raised e
        | .ok d =>
          match jsonGetIdx d 0 with
          | .raised e => .raised e
          | .ok d0 =>
            match jsonGetKey d0 "embedding" with
            | .raised e => .raised e
            | .ok emb => .ok (some emb)

/-- A wall-clock datetime (no timezone). -/
structure Dt where
  year : Nat
  month : Nat
  day : Nat
  hour : Nat
  minute : Nat
  second : Nat
deriving DecidableEq

/-- Result of parsing one cell with `pd.to_datetime(..., errors="coerce")`:
a timezone-naive datetime, a timezone-aware one (offset in minutes;
`Z` is offset 0 but aware), or `NaT` for a failed conversion. -/
inductive ParsedDt where
  | naive (d : Dt)
  | aware (d : Dt) (offsetMinutes : Int)
  | nat_
deriving DecidableEq

/-- Value of a decimal digit, `none` for non-digits. -/
def digitVal (c : Char) : Option Nat :=
  if c.isDigit then some (c.toNat - 48) else none

/-- Two-digit number from two characters. -/
def d2 (a b : Char) : Option Nat :=
  match digitVal a, digitVal b with
  | some x, some y => some (10 * x + y)
  | _, _ => none

/-- Four-digit number from four characters. -/
def d4 (a b c d : Char) : Option Nat :=
  match d2 a b, d2 c d with
  | some x, some y => some (100 * x + y)
  | _, _ => none

/-- Field-range validation mirroring what the pandas parser accepts. -/
def dtValid (d : Dt) : Bool :=
  1 ≤ d.month && d.month ≤ 12 && 1 ≤ d.day && d.day ≤ 31 &&
    d.hour ≤ 23 && d.minute ≤ 59 && d.second ≤ 59

/-- `pd.to_datetime(cell, errors="coerce")` on one cell, modelled for
the ISO-8601 shapes the pipeline's data uses: `YYYY-MM-DD`, optionally
`THH:MM:SS`, optionally a trailing `Z` or `+HH:MM` / `-HH:MM` offset.
Anything else coerces to `NaT`. -/
def to_datetime (s : String) : ParsedDt :=
  match s.data with
  | [y1, y2, y3, y4, '-', m1, m2, '-', a1, a2] =>
    match d4 y1 y2 y3 y4, d2 m1 m2, d2 a1 a2 with
    | some y, some mo, some da =>
      let d : Dt := ⟨y, mo, da, 0, 0, 0⟩
      if dtValid d then .naive d else .nat_
    | _, _, _ => .nat_
  | [y1, y2, y3, y4, '-', m1, m2, '-', a1, a2, 'T',
     h1, h2, ':', i1, i2, ':', s1, s2] =>
    match d4 y1 y2 y3 y4, d2 m1 m2, d2 a1 a2, d2 h1 h2, d2 i1 i2, d2 s1 s2 with
    | some y, some mo, some da, some h, some mi, some se =>
      let d : Dt := ⟨y, mo, da, h, mi, se⟩
      if dtValid d then .naive d else .nat_
    | _, _, _, _, _, _ => .nat_
  | [y1, y2, y3, y4, '-', m1, m2, '-', a1, a2, 'T',
     h1, h2, ':', i1, i2, ':', s1, s2, 'Z'] =>
    match d4 y1 y2 y3 y4, d2 m1 m2, d2 a1 a2, d2 h1 h2, d2 i1 i2, d2 s1 s2 with
    | some y, some mo, some da, some h, some mi, some se =>
      let d : Dt := ⟨y, mo, da, h, mi, se⟩
      if dtValid d then .aware d 0 else .nat_
    | _, _, _, _, _, _ => .nat_
  | [y1, y2, y3, y4, '-', m1, m2, '-', a1, a2, 'T',
     h1, h2, ':', i1, i2, ':', s1, s2, sign, o1, o2, ':', o3, o4] =>
    match d4 y1 y2 y3 y4, d2 m1 m2, d2 a1 a2, d2 h1 h2, d2 i1 i2, d2 s1 s2,
        d2 o1 o2, d2 o3 o4 with
    | some y, some mo, some da, some h, some mi, some se, some oh, some om =>
      let d : Dt := ⟨y, mo, da, h, mi, se⟩
      if dtValid d && oh ≤ 23 && om ≤ 59 then
        if sign = '+' then .aware d (60 * oh + om)
        else if sign = '-' then .aware d (-(60 * (oh : Int) + om))
        else .nat_
      else .nat_
    | _, _, _, _, _, _, _, _ => .nat_
  | _ => .nat_

/-- Left-pad a decimal rendering with zeroes to the given width. -/
def padNum (width n : Nat) : String :=
  let s := toString n
  String.mk (List.replicate (width - s.length) '0') ++ s

/-- `dt.strftime("%Y-%m-%dT%H:%M:%SZ")`. -/
def strftime_iso_z (d : Dt) : String :=
  padNum 4 d.year ++ "-" ++ padNum 2 d.month ++ "-" ++ padNum 2 d.day ++ "T" ++
    padNum 2 d.hour ++ ":" ++ padNum 2 d.minute ++ ":" ++ padNum 2 d.second ++ "Z"

/-- Whether a parsed cell is timezone-aware. -/
def ParsedDt.isAware : ParsedDt → Bool
  | .aware _ _ => true
  | _ => false

/-- `format_datetime_column` (`utils/data_processing.py` 58-76) on one
column of cells: `pd.to_datetime(df[column], errors="coerce")`, then
`dt.tz_localize("UTC", ...)`, then `strftime("%Y-%m-%dT%H:%M:%SZ")`.
When any cell parses timezone-aware the step raises instead of
completing: a homogeneous-offset column becomes a tz-aware series and
`tz_localize` raises `TypeError` ("Already tz-aware ..."); a mixed
column fails at `to_datetime`/`.dt` (ValueError / AttributeError
depending on the pandas version). Otherwise each naive value renders
in the fixed profile and each `NaT` renders as NaN (`none`). -/
def format_datetime_column (col : List String) : PyResult (List (Option String)) :=
  let parsed := col.map to_datetime
  if parsed.any ParsedDt.isAware then
    .raised "TypeError"
  else
    .ok (parsed.map fun p =>
      match p with
      | .naive d => some (strftime_iso_z d)
      | _ => none)

/-- `format_datetime_for_azure` (`utils/data_processing.py` 37-55): the
string-level helper (exported but not invoked by the pipeline). Keeps
a string that ends in `Z` or has `+`/`-` past position 10, else
appends `Z`. -/
def format_datetime_for_azure (dt_str : String) : String :=
  if dt_str.data.getLast? == some 'Z' || (dt_str.data.drop 10).contains '+'
      || (dt_str.data.drop 10).contains '-' then
    dt_str
  else
    dt_str ++ "Z"

/-! ### Derived notions used to state and prove the claims -/

/-- The row value written back by one per-row iteration, as a function
of the oracle outcomes (restates the three `df.at[idx, ...]` write
groups of `process_batch`). -/
def outcomeRow (ora : Oracle) (idx : Nat) (r : Row) : Row :=
  match ora.embed idx (textToEmbed r) with
  | .failure =>
    { r with
      embedded_status := "failed"
      embedded_error := "Embedding generation failed"
      embedded_at := some (ora.now idx) }
  | .ok _ =>
    match ora.upload idx with
    | .ok =>
      { r with
        embedded_status := "success"
        embedded_error := ""
        embedded_at := some (ora.now idx) }
    | .rejected =>
      { r with
        embedded_status := "failed"
        embedded_error := "Upload to Azure Search failed"
        embedded_at := some (ora.now idx) }
    | .exn msg =>
      { r with
        embedded_status := "failed"
        embedded_error := pySlice msg 2000
        embedded_at := some (ora.now idx) }

/-- Increment of `success_count` contributed by one row. -/
def succInc (ora : Oracle) (idx : Nat) (r : Row) : Nat :=
  match ora.embed idx (textToEmbed r) with
  | .failure => 0
  | .ok _ =>
    match ora.upload idx with
    | .ok => 1
    | .rejected => 0
    | .exn _ => 0

/-- Increment of `fail_count` contributed by one row. -/
def failInc (ora : Oracle) (idx : Nat) (r : Row) : Nat :=
  match ora.embed idx (textToEmbed r) with
  | .failure => 1
  | .ok _ =>
    match ora.upload idx with
    | .ok => 0
    | .rejected => 1
    | .exn _ => 1

/-- The events emitted by one per-row iteration. `dfAfter` is the table
as of the write-back (what a periodic checkpoint would persist) and
`processedAfter` the value of `success_count + fail_count` after this
row. The embedding-failure branch emits only the embed call: its
`continue` skips checkpointing and the sleep. -/
def stepEvents (ora : Oracle) (cfg : Cfg) (dfAfter : List Row)
    (processedAfter idx : Nat) (r : Row) : List Event :=
  match ora.embed idx (textToEmbed r) with
  | .failure => [.embedCall idx (textToEmbed r)]
  | .ok emb =>
    [.embedCall idx (textToEmbed r), .uploadCall idx (buildDocument r emb)]
      ++ (if cfg.checkpoint_path && (processedAfter % cfg.checkpoint_every == 0)
          then [.checkpoint dfAfter] else [])
      ++ [.sleepReq]

/-- Whether an event is a client invocation (embed or upload) for row `i`. -/
def mentionsRow (i : Nat) : Event → Bool
  | .embedCall j _ => j == i
  | .uploadCall j _ => j == i
  | _ => false

/-- Whether an event is an embed-client invocation for row `i`. -/
def isEmbedFor (i : Nat) : Event → Bool
  | .embedCall j _ => j == i
  | _ => false

/-- Whether an event is an upload-client invocation for row `i`. -/
def isUploadFor (i : Nat) : Event → Bool
  | .uploadCall j _ => j == i
  | _ => false

/-- Whether an event is the rate-limit sleep. -/
def isSleepReq : Event → Bool
  | .sleepReq => true
  | _ => false

/-- Whether an event is a checkpoint save. -/
def isCheckpointEv : Event → Bool
  | .checkpoint _ => true
  | _ => false

/-- Whether the embedding call for row value `r` at label `idx` succeeds. -/
def embedOkR (ora : Oracle) (idx : Nat) (r : Row) : Bool :=
  match ora.embed idx (textToEmbed r) with
  | .ok _ => true
  | .failure => false

/-- Whether the embedding call for row `j` of table `df` succeeds. -/
def embedOkAt (ora : Oracle) (df : List Row) (j : Nat) : Bool :=
  match df.get? j with
  | some r => embedOkR ora j r
  | none => false

/-- Number of periodic checkpoint saves the loop performs over the rows
`l` of `df`, given `done` rows already counted: one save per row whose
embedding succeeds and whose 1-based processed count is a multiple of
`checkpoint_every` (rows failing at the embedding step are counted but
their iteration skips the save). -/
def cpSched (ora : Oracle) (cfg : Cfg) (df : List Row) : List Nat → Nat → Nat
  | [], _ => 0
  | j :: l, done =>
    (if embedOkAt ora df j && cfg.checkpoint_path
        && ((done + 1) % cfg.checkpoint_every == 0)
     then 1 else 0) + cpSched ora cfg df l (done + 1)

/-- The tracking-field invariant of one row: `embedded_at` is set iff
the status is `"success"` or `"failed"`. -/
def rowInv (r : Row) : Prop :=
  r.embedded_at.isSome = true ↔
    (r.embedded_status = "success" ∨ r.embedded_status = "failed")

/-- The invariant over a whole table. -/
def tableInv (df : List Row) : Prop :=
  ∀ r ∈ df, rowInv r

/-- The tracking-field invariant on a raw (pre-initialization) row. -/
def rawRowInv (r : RawRow) : Prop :=
  r.at_.isSome = true ↔ (r.status = some "success" ∨ r.status = some "failed")

/-- Column/cell coherence of a raw table: an absent column means every
row's cell for it is absent (that is what column absence means in
pandas). -/
def rawCoherent (t : RawTable) : Prop :=
  (t.statusCol = false → ∀ r ∈ t.rows, r.status = none) ∧
    (t.atCol = false → ∀ r ∈ t.rows, r.at_ = none)

/-! ### Concrete fixtures for witnesses and counterexamples -/

/-- A one-column row with the given tracking status. -/
def exRow (st : String) : Row :=
  { cols := [("Id", some "x"), ("ShortText", some "t")]
    embedded_status := st
    embedded_error := ""
    embedded_at := if st = "pending" then none else some 7 }

/-- Ten rows, three of them already `"success"` (positions 0, 2, 5). -/
def exDf10 : List Row :=
  [exRow "success", exRow "pending", exRow "success", exRow "pending",
   exRow "failed", exRow "success", exRow "pending", exRow "failed",
   exRow "pending", exRow "pending"]

/-- A single pending row. -/
def exDf1 : List Row := [exRow "pending"]

/-- Oracle whose embedding calls all fail. -/
def oraFail : Oracle :=
  { embed := fun _ _ => .failure, upload := fun _ => .ok, now := fun _ => 3 }

/-- Oracle whose embedding and upload calls all succeed. -/
def oraOk : Oracle :=
  { embed := fun _ _ => .ok [1], upload := fun _ => .ok, now := fun _ => 3 }

/-- Oracle whose uploads are rejected (`upload_documents` returns `False`). -/
def oraRej : Oracle :=
  { embed := fun _ _ => .ok [1], upload := fun _ => .rejected, now := fun _ => 3 }

/-- Oracle whose uploads raise an exception. -/
def oraExn : Oracle :=
  { embed := fun _ _ => .ok [1], upload := fun _ => .exn "boom", now := fun _ => 3 }

/-- Oracle failing the embedding for row 4 only (the spec scenario of
one embedding failure among the five batch rows of `exDf10`). -/
def oraMix : Oracle :=
  { embed := fun i _ => if i = 4 then .failure else .ok [1]
    upload := fun _ => .ok
    now := fun _ => 3 }

/-- Checkpointing configuration with interval 1. -/
def cfg1 : Cfg := { checkpoint_path := true, checkpoint_every := 1 }

/-- The default checkpointing configuration (`checkpoint_every=250`). -/
def cfg250 : Cfg := { checkpoint_path := true, checkpoint_every := 250 }

/-- An empty file system (no checkpoint file exists anywhere). -/
def fsEmpty : String → Option RawTable := fun _ => none

/-- A raw source table with no tracking columns yet. -/
def exRawTable : RawTable :=
  { rows := [{ cols := [("Id", some "x"), ("ShortText", some "t")]
               status := none, error := none, at_ := none }]
    statusCol := false, errorCol := false, atCol := false }

/-! ### Foundational lemmas about the per-row step -/

/-- Characterization of one per-row iteration on an existing row:
write-back, counter increments and emitted events. -/
theorem processOne_eq (ora : Oracle) (cfg : Cfg) (s : BatchState) (idx : Nat)
    (r : Row) (h : s.df.get? idx = some r) :
    processOne ora cfg s idx =
      { df := s.df.set idx (outcomeRow ora idx r)
        success_count := s.success_count + succInc ora idx r
        fail_count := s.fail_count + failInc ora idx r
        trace := s.trace ++
          stepEvents ora cfg (s.df.set idx (outcomeRow ora idx r))
            (s.success_count + s.fail_count + 1) idx r } := by
  unfold processOne outcomeRow succInc failInc stepEvents
  simp only [h]
  cases he : ora.embed idx (textToEmbed r) with
  | failure => simp
  | ok emb =>
    cases hu : ora.upload idx with
    | ok =>
      have hx : s.success_count + 1 + s.fail_count
          = s.success_count + s.fail_count + 1 := by omega
      simp only [hx]
      split <;> simp [List.append_assoc]
    | rejected =>
      have hy : s.success_count + (s.fail_count + 1)
          = s.success_count + s.fail_count + 1 := by omega
      simp only [hy]
      split <;> simp [List.append_assoc]
    | exn msg =>
      have hy : s.success_count + (s.fail_count + 1)
          = s.success_count + s.fail_count + 1 := by omega
      simp only [hy]
      split <;> simp [List.append_assoc]

/-- A per-row step on a missing label is the identity (never reached by
`process_batch`). -/
theorem processOne_none (ora : Oracle) (cfg : Cfg) (s : BatchState) (idx : Nat)
    (h : s.df.get? idx = none) : processOne ora cfg s idx = s := by
  unfold processOne
  rw [h]

/-- A per-row step never changes the number of rows. -/
theorem processOne_df_length (ora : Oracle) (cfg : Cfg) (s : BatchState)
    (idx : Nat) : (processOne ora cfg s idx).df.length = s.df.length := by
  cases h : s.df.get? idx with
  | none => rw [processOne_none ora cfg s idx h]
  | some r => rw [processOne_eq ora cfg s idx r h]; simp

/-- A per-row step leaves every other row untouched. -/
theorem processOne_df_get_ne (ora : Oracle) (cfg : Cfg) (s : BatchState)
    (idx i : Nat) (hne : i ≠ idx) :
    (processOne ora cfg s idx).df.get? i = s.df.get? i := by
  cases h : s.df.get? idx with
  | none => rw [processOne_none ora cfg s idx h]
  | some r =>
    rw [processOne_eq ora cfg s idx r h]
    exact List.get?_set_ne _ _ (fun he => hne he.symm)

/-- Each processed row increments exactly one of the two counters. -/
theorem succInc_add_failInc (ora : Oracle) (idx : Nat) (r : Row) :
    succInc ora idx r + failInc ora idx r = 1 := by
  unfold succInc failInc
  cases ora.embed idx (textToEmbed r) with
  | failure => rfl
  | ok emb => cases ora.upload idx <;> rfl

/-- Any event a step emits is an embed or upload call for its own row,
a checkpoint of the passed table, or a sleep. -/
theorem stepEvents_mem_cases (ora : Oracle) (cfg : Cfg) (d : List Row)
    (p idx : Nat) (r : Row) (e : Event)
    (h : e ∈ stepEvents ora cfg d p idx r) :
    (∃ t, e = .embedCall idx t) ∨ (∃ dc, e = .uploadCall idx dc)
      ∨ e = .checkpoint d ∨ e = .sleepReq := by
  unfold stepEvents at h
  revert h
  cases ora.embed idx (textToEmbed r) with
  | failure =>
    intro h
    simp only [List.mem_singleton] at h
    exact Or.inl ⟨_, h⟩
  | ok emb =>
    intro h
    simp only [List.cons_append, List.nil_append, List.mem_cons] at h
    rcases h with h | h | h
    · exact Or.inl ⟨_, h⟩
    · exact Or.inr (Or.inl ⟨_, h⟩)
    · rw [List.mem_append] at h
      rcases h with h | h
      · split at h
        · simp only [List.mem_singleton] at h
          exact Or.inr (Or.inr (Or.inl h))
        · cases h
      · simp only [List.mem_singleton] at h
        exact Or.inr (Or.inr (Or.inr h))

/-- Events of a step at `idx` never invoke a client for a different row. -/
theorem stepEvents_not_mentions (ora : Oracle) (cfg : Cfg) (d : List Row)
    (p idx : Nat) (r : Row) (i : Nat) (hne : idx ≠ i) :
    ∀ e ∈ stepEvents ora cfg d p idx r, mentionsRow i e = false := by
  intro e he
  rcases stepEvents_mem_cases ora cfg d p idx r e he with
    ⟨t, rfl⟩ | ⟨dc, rfl⟩ | rfl | rfl
  · simp [mentionsRow, hne]
  · simp [mentionsRow, hne]
  · rfl
  · rfl

/-- Each step emits exactly one embed-client call, for its own row. -/
theorem stepEvents_countP_embed (ora : Oracle) (cfg : Cfg) (d : List Row)
    (p idx : Nat) (r : Row) (i : Nat) :
    (stepEvents ora cfg d p idx r).countP (isEmbedFor i)
      = if idx = i then 1 else 0 := by
  unfold stepEvents
  cases hE : ora.embed idx (textToEmbed r) with
  | failure =>
    by_cases hii : idx = i <;>
      simp [List.countP_cons, isEmbedFor, hii]
  | ok emb =>
    cases hcp : cfg.checkpoint_path && (p % cfg.checkpoint_every == 0) <;>
      by_cases hii : idx = i <;>
        simp [List.countP_cons, List.countP_append, isEmbedFor, hii, hcp]

/-- Each step emits one upload-client call when its embedding succeeds
and none when it fails, always for its own row. -/
theorem stepEvents_countP_upload (ora : Oracle) (cfg : Cfg) (d : List Row)
    (p idx : Nat) (r : Row) (i : Nat) :
    (stepEvents ora cfg d p idx r).countP (isUploadFor i)
      = if idx = i ∧ embedOkR ora idx r = true then 1 else 0 := by
  unfold stepEvents
  cases hE : ora.embed idx (textToEmbed r) with
  | failure =>
    simp [List.countP_cons, isUploadFor, embedOkR, hE]
  | ok emb =>
    by_cases hii : idx = i
    · subst hii
      cases hcp : cfg.checkpoint_path && (p % cfg.checkpoint_every == 0) <;>
        simp [List.countP_cons, List.countP_append, isUploadFor, embedOkR,
          hE, hcp]
    · cases hcp : cfg.checkpoint_path && (p % cfg.checkpoint_every == 0) <;>
        simp [List.countP_cons, List.countP_append, isUploadFor, embedOkR,
          hE, hii, hcp]

/-- Each step emits one rate-limit sleep when its embedding succeeds and
none when it fails (the `continue` skips the sleep). -/
theorem stepEvents_countP_sleep (ora : Oracle) (cfg : Cfg) (d : List Row)
    (p idx : Nat) (r : Row) :
    (stepEvents ora cfg d p idx r).countP isSleepReq
      = if embedOkR ora idx r = true then 1 else 0 := by
  unfold stepEvents
  cases hE : ora.embed idx (textToEmbed r) with
  | failure => simp [List.countP_cons, isSleepReq, embedOkR, hE]
  | ok emb =>
    cases hcp : cfg.checkpoint_path && (p % cfg.checkpoint_every == 0) <;>
      simp [List.countP_cons, List.countP_append, isSleepReq, embedOkR, hE, hcp]

/-- Each step emits a periodic checkpoint save exactly when its
embedding succeeds, a checkpoint path is set, and the processed count
reaches the interval. -/
theorem stepEvents_countP_checkpoint (ora : Oracle) (cfg : Cfg) (d : List Row)
    (p idx : Nat) (r : Row) :
    (stepEvents ora cfg d p idx r).countP isCheckpointEv
      = if embedOkR ora idx r && cfg.checkpoint_path
            && (p % cfg.checkpoint_every == 0) then 1 else 0 := by
  unfold stepEvents
  cases hE : ora.embed idx (textToEmbed r) with
  | failure =>
    simp [List.countP_cons, isCheckpointEv, embedOkR, hE]
  | ok emb =>
    cases hcp : cfg.checkpoint_path && (p % cfg.checkpoint_every == 0) <;>
      simp [List.countP_cons, List.countP_append, isCheckpointEv, embedOkR,
        hE, hcp, Bool.and_assoc]

/-- Every checkpoint event a step emits persists exactly the current
table `d` (the whole-table snapshot). -/
theorem stepEvents_checkpoint_mem (ora : Oracle) (cfg : Cfg) (d : List Row)
    (p idx : Nat) (r : Row) (d' : List Row)
    (h : Event.checkpoint d' ∈ stepEvents ora cfg d p idx r) : d' = d := by
  rcases stepEvents_mem_cases ora cfg d p idx r _ h with
    ⟨t, ht⟩ | ⟨dc, hdc⟩ | hc | hs
  · cases ht
  · cases hdc
  · exact (Event.checkpoint.injEq _ _).mp hc
  · cases hs

/-! ### Lemmas about the batch loop (the fold over the selected labels) -/

/-- The batch loop never changes the number of rows. -/
theorem fold_df_length (ora : Oracle) (cfg : Cfg) (l : List Nat) :
    ∀ s : BatchState,
      (l.foldl (processOne ora cfg) s).df.length = s.df.length := by
  induction l with
  | nil => intro s; rfl
  | cons j l ih =>
    intro s
    rw [List.foldl_cons, ih, processOne_df_length]

/-- Rows whose label is not in the processed list are never written. -/
theorem fold_df_get_not_mem (ora : Oracle) (cfg : Cfg) (i : Nat) :
    ∀ l : List Nat, i ∉ l → ∀ s : BatchState,
      (l.foldl (processOne ora cfg) s).df.get? i = s.df.get? i := by
  intro l
  induction l with
  | nil => intro _ s; rfl
  | cons j l ih =>
    intro hi s
    have hij : i ≠ j := fun h => hi (by simp [h])
    have hit : i ∉ l := fun h => hi (by simp [h])
    rw [List.foldl_cons, ih hit, processOne_df_get_ne ora cfg s j i hij]

/-- Rows whose label is not in the processed list get no client calls. -/
theorem fold_trace_not_mentions (ora : Oracle) (cfg : Cfg) (i : Nat) :
    ∀ l : List Nat, i ∉ l → ∀ s : BatchState,
      (∀ e ∈ s.trace, mentionsRow i e = false) →
      ∀ e ∈ (l.foldl (processOne ora cfg) s).trace, mentionsRow i e = false := by
  intro l
  induction l with
  | nil => intro _ s hs; exact hs
  | cons j l ih =>
    intro hi s hs
    have hij : j ≠ i := fun h => hi (by simp [h])
    have hit : i ∉ l := fun h => hi (by simp [h])
    rw [List.foldl_cons]
    refine ih hit (processOne ora cfg s j) ?_
    cases h : s.df.get? j with
    | none => rw [processOne_none ora cfg s j h]; exact hs
    | some r =>
      rw [processOne_eq ora cfg s j r h]
      intro e he
      dsimp only at he
      rw [List.mem_append] at he
      rcases he with he | he
      · exact hs e he
      · exact stepEvents_not_mentions ora cfg _ _ j r i hij e he

/-- Final value of a processed row: the write-back prescribed by the
oracle outcomes for its original value. -/
theorem fold_df_get_mem (ora : Oracle) (cfg : Cfg) :
    ∀ l : List Nat, l.Pairwise (· ≠ ·) → ∀ i ∈ l, ∀ (s : BatchState) (r : Row),
      s.df.get? i = some r →
      (l.foldl (processOne ora cfg) s).df.get? i
        = some (outcomeRow ora i r) := by
  intro l
  induction l with
  | nil => intro _ i hi; cases hi
  | cons j l ih =>
    intro hp i hi s r hr
    rw [List.foldl_cons]
    rcases List.pairwise_cons.mp hp with ⟨hhead, htail⟩
    rcases List.mem_cons.mp hi with rfl | hil
    · have hnotin : i ∉ l := fun h => hhead i h rfl
      rw [fold_df_get_not_mem ora cfg i l hnotin]
      rw [processOne_eq ora cfg s i r hr]
      dsimp only
      obtain ⟨hlt, -⟩ := List.get?_eq_some.mp hr
      exact List.get?_set_eq_of_lt _ hlt
    · have hji : j ≠ i := hhead i hil
      have hr' : (processOne ora cfg s j).df.get? i = some r := by
        rw [processOne_df_get_ne ora cfg s j i (Ne.symm hji)]; exact hr
      exact ih htail i hil _ r hr'

/-- The batch loop invokes the embed client once per occurrence of a
label in the processed list (hence exactly once per batch row). -/
theorem fold_countP_embed (ora : Oracle) (cfg : Cfg) (i : Nat) :
    ∀ l : List Nat, ∀ s : BatchState, (∀ j ∈ l, j < s.df.length) →
      ((l.foldl (processOne ora cfg) s).trace.countP (isEmbedFor i))
        = s.trace.countP (isEmbedFor i) + l.count i := by
  intro l
  induction l with
  | nil => intro s _; simp
  | cons j l ih =>
    intro s hv
    have hjlt : j < s.df.length := hv j (List.mem_cons_self j l)
    obtain ⟨r, hr⟩ : ∃ r, s.df.get? j = some r :=
      ⟨_, List.get?_eq_get hjlt⟩
    rw [List.foldl_cons, ih (processOne ora cfg s j) ?_]
    · rw [processOne_eq ora cfg s j r hr]
      dsimp only
      rw [List.countP_append, stepEvents_countP_embed]
      by_cases hji : j = i <;>
        simp [hji, List.count_cons] <;> omega
    · intro j' hj'
      rw [processOne_df_length]
      exact hv j' (List.mem_cons_of_mem j hj')

/-- Labels outside the processed list receive no upload calls. -/
theorem fold_countP_upload_not_mem (ora : Oracle) (cfg : Cfg) (i : Nat) :
    ∀ l : List Nat, i ∉ l → ∀ s : BatchState,
      ((l.foldl (processOne ora cfg) s).trace.countP (isUploadFor i))
        = s.trace.countP (isUploadFor i) := by
  intro l
  induction l with
  | nil => intro _ s; rfl
  | cons j l ih =>
    intro hi s
    have hij : j ≠ i := fun h => hi (by simp [h])
    have hit : i ∉ l := fun h => hi (by simp [h])
    rw [List.foldl_cons, ih hit]
    cases h : s.df.get? j with
    | none => rw [processOne_none ora cfg s j h]
    | some r =>
      rw [processOne_eq ora cfg s j r h]
      dsimp only
      rw [List.countP_append, stepEvents_countP_upload]
      simp [hij]

/-- The batch loop invokes the upload client for a processed row exactly
when that row's embedding succeeded (in particular, never after an
embedding failure, and never twice). -/
theorem fold_countP_upload_mem (ora : Oracle) (cfg : Cfg) :
    ∀ l : List Nat, l.Pairwise (· ≠ ·) → ∀ i ∈ l, ∀ (s : BatchState) (r : Row),
      s.df.get? i = some r →
      ((l.foldl (processOne ora cfg) s).trace.countP (isUploadFor i))
        = s.trace.countP (isUploadFor i)
          + (if embedOkR ora i r = true then 1 else 0) := by
  intro l
  induction l with
  | nil => intro _ i hi; cases hi
  | cons j l ih =>
    intro hp i hi s r hr
    rcases List.pairwise_cons.mp hp with ⟨hhead, htail⟩
    rw [List.foldl_cons]
    rcases List.mem_cons.mp hi with rfl | hil
    · have hnotin : i ∉ l := fun h => hhead i h rfl
      rw [fold_countP_upload_not_mem ora cfg i l hnotin]
      rw [processOne_eq ora cfg s i r hr]
      dsimp only
      rw [List.countP_append, stepEvents_countP_upload]
      by_cases hok : embedOkR ora i r = true <;> simp [hok]
    · have hji : j ≠ i := hhead i hil
      have hr' : (processOne ora cfg s j).df.get? i = some r := by
        rw [processOne_df_get_ne ora cfg s j i (Ne.symm hji)]; exact hr
      rw [ih htail i hil _ r hr']
      cases h : s.df.get? j with
      | none => rw [processOne_none ora cfg s j h]
      | some rj =>
        rw [processOne_eq ora cfg s j rj h]
        dsimp only
        rw [List.countP_append, stepEvents_countP_upload]
        simp [hji]

/-- The batch loop sleeps exactly once per processed row whose embedding
succeeded: embedding-failure iterations skip the rate-limit sleep. -/
theorem fold_countP_sleep (ora : Oracle) (cfg : Cfg) (df : List Row) :
    ∀ l : List Nat, l.Pairwise (· ≠ ·) → ∀ s : BatchState,
      (∀ j ∈ l, s.df.get? j = df.get? j) → (∀ j ∈ l, j < df.length) →
      ((l.foldl (processOne ora cfg) s).trace.countP isSleepReq)
        = s.trace.countP isSleepReq + l.countP (embedOkAt ora df) := by
  intro l
  induction l with
  | nil => intro _ s _ _; simp
  | cons j l ih =>
    intro hp s heq hlt
    rcases List.pairwise_cons.mp hp with ⟨hhead, htail⟩
    have hjlt : j < df.length := hlt j (List.mem_cons_self j l)
    obtain ⟨r, hrdf⟩ : ∃ r, df.get? j = some r := ⟨_, List.get?_eq_get hjlt⟩
    have hr : s.df.get? j = some r := by
      rw [heq j (List.mem_cons_self j l)]; exact hrdf
    rw [List.foldl_cons, ih htail (processOne ora cfg s j) ?_ ?_]
    · rw [processOne_eq ora cfg s j r hr]
      dsimp only
      rw [List.countP_append, stepEvents_countP_sleep]
      have hok : embedOkAt ora df j = embedOkR ora j r := by
        unfold embedOkAt; rw [hrdf]
      rw [List.countP_cons]
      by_cases h : embedOkR ora j r = true <;> simp [h, hok] <;> omega
    · intro j' hj'
      rw [processOne_df_get_ne ora cfg s j j' (fun h => (hhead j' hj') h.symm)]
      exact heq j' (List.mem_cons_of_mem j hj')
    · intro j' hj'
      exact hlt j' (List.mem_cons_of_mem j hj')

/-- The batch loop's periodic checkpoint saves follow `cpSched`: one per
row whose embedding succeeded and whose 1-based processed count is a
multiple of the interval; embedding-failure iterations skip the save
even when the count is a multiple. -/
theorem fold_countP_checkpoint (ora : Oracle) (cfg : Cfg) (df : List Row) :
    ∀ l : List Nat, l.Pairwise (· ≠ ·) → ∀ s : BatchState,
      (∀ j ∈ l, s.df.get? j = df.get? j) → (∀ j ∈ l, j < df.length) →
      ((l.foldl (processOne ora cfg) s).trace.countP isCheckpointEv)
        = s.trace.countP isCheckpointEv
          + cpSched ora cfg df l (s.success_count + s.fail_count) := by
  intro l
  induction l with
  | nil => intro _ s _ _; simp [cpSched]
  | cons j l ih =>
    intro hp s heq hlt
    rcases List.pairwise_cons.mp hp with ⟨hhead, htail⟩
    have hjlt : j < df.length := hlt j (List.mem_cons_self j l)
    obtain ⟨r, hrdf⟩ : ∃ r, df.get? j = some r := ⟨_, List.get?_eq_get hjlt⟩
    have hr : s.df.get? j = some r := by
      rw [heq j (List.mem_cons_self j l)]; exact hrdf
    have hok : embedOkAt ora df j = embedOkR ora j r := by
      unfold embedOkAt; rw [hrdf]
    rw [List.foldl_cons, ih htail (processOne ora cfg s j) ?_ ?_]
    · rw [processOne_eq ora cfg s j r hr]
      dsimp only
      rw [List.countP_append, stepEvents_countP_checkpoint]
      have hsum : s.success_count + succInc ora j r
          + (s.fail_count + failInc ora j r)
          = s.success_count + s.fail_count + 1 := by
        have := succInc_add_failInc ora j r
        omega
      rw [hsum]
      simp only [cpSched]
      rw [hok]
      omega
    · intro j' hj'
      rw [processOne_df_get_ne ora cfg s j j' (fun h => (hhead j' hj') h.symm)]
      exact heq j' (List.mem_cons_of_mem j hj')
    · intro j' hj'
      exact hlt j' (List.mem_cons_of_mem j hj')

/-- Every checkpoint event of the batch loop persists a table with the
same number of rows as the working table (whole-table snapshots). -/
theorem fold_checkpoint_len (ora : Oracle) (cfg : Cfg) :
    ∀ l : List Nat, ∀ s : BatchState,
      (∀ d, Event.checkpoint d ∈ s.trace → d.length = s.df.length) →
      ∀ d, Event.checkpoint d ∈ (l.foldl (processOne ora cfg) s).trace →
        d.length = s.df.length := by
  intro l
  induction l with
  | nil => intro s hs; exact hs
  | cons j l ih =>
    intro s hs d hd
    rw [List.foldl_cons] at hd
    have hlen : (processOne ora cfg s j).df.length = s.df.length :=
      processOne_df_length ora cfg s j
    rw [← hlen]
    refine ih (processOne ora cfg s j) ?_ d hd
    intro d' hd'
    rw [hlen]
    cases h : s.df.get? j with
    | none =>
      rw [processOne_none ora cfg s j h] at hd'
      exact hs d' hd'
    | some r =>
      rw [processOne_eq ora cfg s j r h] at hd'
      dsimp only at hd'
      rw [List.mem_append] at hd'
      rcases hd' with hd' | hd'
      · exact hs d' hd'
      · have hdd := stepEvents_checkpoint_mem ora cfg _ _ j r d' hd'
        rw [hdd, List.length_set]

/-! ### The tracking-field invariant -/

/-- Every write-back sets the timestamp together with a terminal status,
so the written row satisfies the invariant whatever the oracle says. -/
theorem outcomeRow_rowInv (ora : Oracle) (idx : Nat) (r : Row) :
    rowInv (outcomeRow ora idx r) := by
  unfold rowInv outcomeRow
  cases ora.embed idx (textToEmbed r) with
  | failure => simp
  | ok emb => cases ora.upload idx <;> simp

/-- One per-row step preserves the table invariant. -/
theorem processOne_tableInv (ora : Oracle) (cfg : Cfg) (s : BatchState)
    (idx : Nat) (h : tableInv s.df) :
    tableInv (processOne ora cfg s idx).df := by
  cases hg : s.df.get? idx with
  | none => rw [processOne_none ora cfg s idx hg]; exact h
  | some r =>
    rw [processOne_eq ora cfg s idx r hg]
    intro r' hr'
    rcases List.mem_or_eq_of_mem_set hr' with hr' | rfl
    · exact h r' hr'
    · exact outcomeRow_rowInv ora idx r

/-- The batch loop preserves the table invariant. -/
theorem fold_tableInv (ora : Oracle) (cfg : Cfg) :
    ∀ (l : List Nat) (s : BatchState), tableInv s.df →
      tableInv ((l.foldl (processOne ora cfg) s).df) := by
  intro l
  induction l with
  | nil => intro s h; exact h
  | cons j l ih =>
    intro s h
    rw [List.foldl_cons]
    exact ih _ (processOne_tableInv ora cfg s j h)

/-- `process_batch` preserves the table invariant. -/
theorem process_batch_tableInv (ora : Oracle) (cfg : Cfg) (bs : Nat)
    (df : List Row) (h : tableInv df) :
    tableInv (process_batch ora cfg bs df).df := by
  unfold process_batch
  split
  · exact h
  · split
    · exact fold_tableInv ora cfg _ _ h
    · exact fold_tableInv ora cfg _ _ h

/-- The outer loop of `main` preserves the table invariant. -/
theorem main_loop_tableInv (oras : Nat → Oracle) (cfg : Cfg) (bs : Nat) :
    ∀ (fuel bn : Nat) (df : List Row), tableInv df →
      tableInv (main_loop oras cfg bs fuel bn df).1 := by
  intro fuel
  induction fuel with
  | zero => intro bn df h; exact h
  | succ fuel ih =>
    intro bn df h
    unfold main_loop
    split
    · exact h
    · dsimp only
      split
      · exact process_batch_tableInv (oras bn) cfg bs df h
      · exact ih (bn + 1) _ (process_batch_tableInv (oras bn) cfg bs df h)

/-- `init_embedding_tracking` establishes the invariant: on a coherent
raw table whose rows already satisfy the raw invariant (vacuously true
for a fresh load without tracking columns), all initialized rows
satisfy it. -/
theorem init_embedding_tracking_inv (t : RawTable) (hc : rawCoherent t)
    (h : ∀ r ∈ t.rows, rawRowInv r) :
    tableInv (init_embedding_tracking t) := by
  intro r' hr'
  unfold init_embedding_tracking at hr'
  rw [List.mem_map] at hr'
  obtain ⟨r, hr, rfl⟩ := hr'
  have hinv := h r hr
  unfold rawRowInv at hinv
  unfold rowInv
  dsimp only
  cases hst : t.statusCol with
  | false =>
    have h0 : r.status = none := hc.1 hst r hr
    have hatnone : r.at_ = none := by
      rcases hav : r.at_ with _ | v
      · rfl
      · exfalso
        have h1 : r.status = some "success" ∨ r.status = some "failed" :=
          hinv.mp (by rw [hav]; rfl)
        rw [h0] at h1
        rcases h1 with h1 | h1 <;> cases h1
    cases hat : t.atCol <;> simp [hatnone]
  | true =>
    cases hat : t.atCol with
    | false =>
      have h0 : r.at_ = none := hc.2 hat r hr
      have h1 : ¬(r.status = some "success" ∨ r.status = some "failed") := by
        rw [← hinv, h0]; simp
      rcases hsv : r.status with _ | v
      · simp
      · rw [hsv] at h1
        push_neg at h1
        have h2 : v ≠ "success" := fun hh => h1.1 (by rw [hh])
        have h3 : v ≠ "failed" := fun hh => h1.2 (by rw [hh])
        simp [h2, h3]
    | true =>
      rcases hsv : r.status with _ | v
      · have h1 : r.at_ = none := by
          rcases hav : r.at_ with _ | w
          · rfl
          · exfalso
            have h2 := hinv.mp (by rw [hav]; rfl)
            rw [hsv] at h2
            rcases h2 with h2 | h2 <;> cases h2
        simp [h1]
      · rw [hsv] at hinv
        simpa using hinv

/-! ### Batch selection -/

/-- Membership in the pending filter: in range and not `"success"`. -/
theorem pendingIdx_mem (df : List Row) (i : Nat) :
    i ∈ pendingIdx df ↔ i < df.length ∧ statusAt df i ≠ "success" := by
  unfold pendingIdx
  rw [List.mem_filter, List.mem_range]
  simp [bne_iff_ne]

/-- The pending labels are strictly increasing (stable table order). -/
theorem pendingIdx_sorted (df : List Row) :
    (pendingIdx df).Pairwise (· < ·) :=
  List.Pairwise.filter _ (List.pairwise_lt_range _)

/-- The batch labels are strictly increasing (stable table order). -/
theorem batchOf_sorted (df : List Row) (bs : Nat) :
    (batchOf df bs).Pairwise (· < ·) :=
  List.Pairwise.sublist (List.take_sublist _ _) (pendingIdx_sorted df)

/-- The batch labels are distinct. -/
theorem batchOf_pairwise_ne (df : List Row) (bs : Nat) :
    (batchOf df bs).Pairwise (· ≠ ·) :=
  (batchOf_sorted df bs).imp Nat.ne_of_lt

/-- Every batch label is a pending label. -/
theorem batchOf_subset (df : List Row) (bs : Nat) :
    ∀ i ∈ batchOf df bs, i ∈ pendingIdx df :=
  fun _ h => List.take_subset _ _ h

/-- Every batch label indexes a real row. -/
theorem batchOf_mem_lt (df : List Row) (bs : Nat) (i : Nat)
    (h : i ∈ batchOf df bs) : i < df.length :=
  ((pendingIdx_mem df i).mp (batchOf_subset df bs i h)).1

/-- Every batch label has a non-`"success"` status. -/
theorem batchOf_mem_status (df : List Row) (bs : Nat) (i : Nat)
    (h : i ∈ batchOf df bs) : statusAt df i ≠ "success" :=
  ((pendingIdx_mem df i).mp (batchOf_subset df bs i h)).2

/-- The batch has `min batch_size (number of pending rows)` labels. -/
theorem batchOf_length (df : List Row) (bs : Nat) :
    (batchOf df bs).length = min bs (pendingIdx df).length :=
  List.length_take bs (pendingIdx df)

/-- The batch is the prefix of the pending labels: every pending label
left out of the batch comes after every batch label. -/
theorem batchOf_first (df : List Row) (bs : Nat) (i : Nat)
    (hi : i ∈ pendingIdx df) (hni : i ∉ batchOf df bs) :
    ∀ j ∈ batchOf df bs, j < i := by
  intro j hj
  have hsplit : i ∈ (pendingIdx df).take bs ++ (pendingIdx df).drop bs := by
    rw [List.take_append_drop]; exact hi
  rcases List.mem_append.mp hsplit with h | h
  · exact absurd h hni
  · exact (pendingIdx_sorted df).rel_of_mem_take_of_mem_drop hj h

/-! ### `process_batch`-level lemmas -/

/-- `process_batch` with at least one pending row: the fold over the
batch followed by the final checkpoint save. -/
theorem process_batch_eq (ora : Oracle) (cfg : Cfg) (bs : Nat)
    (df : List Row) (h : (pendingIdx df).length ≠ 0) :
    process_batch ora cfg bs df =
      (if cfg.checkpoint_path then
        { (batchOf df bs).foldl (processOne ora cfg)
            { df := df, success_count := 0, fail_count := 0, trace := [] } with
          trace := ((batchOf df bs).foldl (processOne ora cfg)
            { df := df, success_count := 0, fail_count := 0, trace := [] }).trace
            ++ [.checkpoint ((batchOf df bs).foldl (processOne ora cfg)
                { df := df, success_count := 0, fail_count := 0, trace := [] }).df] }
      else
        (batchOf df bs).foldl (processOne ora cfg)
          { df := df, success_count := 0, fail_count := 0, trace := [] }) := by
  unfold process_batch
  rw [if_neg h]

/-- A row whose status is `"success"` is not written and gets no client
calls during `process_batch`. -/
theorem process_batch_success_untouched (ora : Oracle) (cfg : Cfg) (bs : Nat)
    (df : List Row) (i : Nat) (r : Row) (hr : df.get? i = some r)
    (hs : r.embedded_status = "success") :
    (process_batch ora cfg bs df).df.get? i = some r
      ∧ ∀ e ∈ (process_batch ora cfg bs df).trace, mentionsRow i e = false := by
  have hstat : statusAt df i = "success" := by
    unfold statusAt; rw [hr]; exact hs
  have hnp : i ∉ pendingIdx df := fun hmem =>
    ((pendingIdx_mem df i).mp hmem).2 hstat
  have hnb : i ∉ batchOf df bs := fun hbm => hnp (batchOf_subset df bs i hbm)
  have hnil : ∀ e ∈ ([] : List Event), mentionsRow i e = false :=
    fun e he => absurd he (List.not_mem_nil _)
  unfold process_batch
  split
  · exact ⟨hr, hnil⟩
  · dsimp only
    split
    · refine ⟨?_, ?_⟩
      · rw [fold_df_get_not_mem ora cfg i _ hnb]; exact hr
      · intro e he
        dsimp only at he
        rw [List.mem_append] at he
        rcases he with he | he
        · exact fold_trace_not_mentions ora cfg i _ hnb _ hnil e he
        · rw [List.mem_singleton] at he; subst he; rfl
    · refine ⟨?_, ?_⟩
      · rw [fold_df_get_not_mem ora cfg i _ hnb]; exact hr
      · exact fold_trace_not_mentions ora cfg i _ hnb _ hnil

/-- Final value of a batch row after `process_batch`. -/
theorem process_batch_df_get_mem (ora : Oracle) (cfg : Cfg) (bs : Nat)
    (df : List Row) (idx : Nat) (r : Row)
    (hb : idx ∈ batchOf df bs) (hr : df.get? idx = some r) :
    (process_batch ora cfg bs df).df.get? idx
      = some (outcomeRow ora idx r) := by
  have hne : (pendingIdx df).length ≠ 0 := by
    intro h0
    rw [List.length_eq_zero] at h0
    have := batchOf_subset df bs idx hb
    rw [h0] at this
    exact absurd this (List.not_mem_nil _)
  rw [process_batch_eq ora cfg bs df hne]
  have hfold := fold_df_get_mem ora cfg (batchOf df bs)
    (batchOf_pairwise_ne df bs) idx hb
    { df := df, success_count := 0, fail_count := 0, trace := [] } r hr
  split
  · exact hfold
  · exact hfold

/-- `process_batch` invokes the embed client exactly once per batch row. -/
theorem process_batch_countP_embed (ora : Oracle) (cfg : Cfg) (bs : Nat)
    (df : List Row) (idx : Nat) (hb : idx ∈ batchOf df bs) :
    (process_batch ora cfg bs df).trace.countP (isEmbedFor idx) = 1 := by
  have hne : (pendingIdx df).length ≠ 0 := by
    intro h0
    rw [List.length_eq_zero] at h0
    have := batchOf_subset df bs idx hb
    rw [h0] at this
    exact absurd this (List.not_mem_nil _)
  have hcount := fold_countP_embed ora cfg idx (batchOf df bs)
    { df := df, success_count := 0, fail_count := 0, trace := [] }
    (fun j hj => batchOf_mem_lt df bs j hj)
  dsimp only at hcount
  rw [List.countP_nil, Nat.zero_add] at hcount
  have hone : (batchOf df bs).count idx = 1 :=
    List.count_eq_one_of_mem (batchOf_pairwise_ne df bs) hb
  rw [process_batch_eq ora cfg bs df hne]
  split
  · dsimp only
    rw [List.countP_append, hcount, hone]
    simp [isEmbedFor, List.countP_cons]
  · rw [hcount, hone]

/-- `process_batch` invokes the upload client for a batch row exactly
when that row's embedding succeeded. -/
theorem process_batch_countP_upload (ora : Oracle) (cfg : Cfg) (bs : Nat)
    (df : List Row) (idx : Nat) (r : Row)
    (hb : idx ∈ batchOf df bs) (hr : df.get? idx = some r) :
    (process_batch ora cfg bs df).trace.countP (isUploadFor idx)
      = if embedOkR ora idx r = true then 1 else 0 := by
  have hne : (pendingIdx df).length ≠ 0 := by
    intro h0
    rw [List.length_eq_zero] at h0
    have := batchOf_subset df bs idx hb
    rw [h0] at this
    exact absurd this (List.not_mem_nil _)
  have hcount := fold_countP_upload_mem ora cfg (batchOf df bs)
    (batchOf_pairwise_ne df bs) idx hb
    { df := df, success_count := 0, fail_count := 0, trace := [] } r hr
  dsimp only at hcount
  rw [List.countP_nil, Nat.zero_add] at hcount
  rw [process_batch_eq ora cfg bs df hne]
  split
  · dsimp only
    rw [List.countP_append, hcount]
    simp [isUploadFor, List.countP_cons]
  · exact hcount

/-- `process_batch` sleeps once per batch row whose embedding succeeded. -/
theorem process_batch_countP_sleep (ora : Oracle) (cfg : Cfg) (bs : Nat)
    (df : List Row) :
    (process_batch ora cfg bs df).trace.countP isSleepReq
      = (batchOf df bs).countP (embedOkAt ora df) := by
  unfold process_batch
  split
  · rename_i h0
    rw [List.length_eq_zero] at h0
    unfold batchOf
    rw [h0]
    simp
  · have hcount := fold_countP_sleep ora cfg df (batchOf df bs)
      (batchOf_pairwise_ne df bs)
      { df := df, success_count := 0, fail_count := 0, trace := [] }
      (fun j _ => rfl) (fun j hj => batchOf_mem_lt df bs j hj)
    dsimp only at hcount
    rw [List.countP_nil, Nat.zero_add] at hcount
    dsimp only
    split
    · dsimp only
      rw [List.countP_append, hcount]
      simp [isSleepReq, List.countP_cons]
    · exact hcount

/-- The checkpoint saves of `process_batch` on a table with pending
rows: the periodic schedule plus the final save. -/
theorem process_batch_countP_checkpoint (ora : Oracle) (cfg : Cfg) (bs : Nat)
    (df : List Row) (h : (pendingIdx df).length ≠ 0) :
    (process_batch ora cfg bs df).trace.countP isCheckpointEv
      = cpSched ora cfg df (batchOf df bs) 0
        + (if cfg.checkpoint_path = true then 1 else 0) := by
  have hcount := fold_countP_checkpoint ora cfg df (batchOf df bs)
    (batchOf_pairwise_ne df bs)
    { df := df, success_count := 0, fail_count := 0, trace := [] }
    (fun j _ => rfl) (fun j hj => batchOf_mem_lt df bs j hj)
  dsimp only at hcount
  rw [List.countP_nil, Nat.zero_add] at hcount
  rw [process_batch_eq ora cfg bs df h]
  split
  · rename_i hp
    dsimp only
    rw [List.countP_append, hcount]
    simp [isCheckpointEv, List.countP_cons, hp]
  · rename_i hp
    rw [hcount]
    simp only [Bool.not_eq_true] at hp
    simp [hp]

/-- Every checkpoint event of `process_batch` persists a table with
exactly the input table's number of rows (whole-table snapshot). -/
theorem process_batch_checkpoint_len (ora : Oracle) (cfg : Cfg) (bs : Nat)
    (df : List Row) :
    ∀ d, Event.checkpoint d ∈ (process_batch ora cfg bs df).trace →
      d.length = df.length := by
  intro d hd
  unfold process_batch at hd
  split at hd
  · exact absurd hd (List.not_mem_nil _)
  · have hlen : ((batchOf df bs).foldl (processOne ora cfg)
        { df := df, success_count := 0, fail_count := 0, trace := [] }).df.length
        = df.length :=
      fold_df_length ora cfg (batchOf df bs) _
    have hbase := fold_checkpoint_len ora cfg (batchOf df bs)
      { df := df, success_count := 0, fail_count := 0, trace := [] }
      (fun d' hd' => absurd hd' (List.not_mem_nil _))
    dsimp only at hd
    split at hd
    · dsimp only at hd
      rw [List.mem_append] at hd
      rcases hd with hd | hd
      · exact hbase d hd
      · rw [List.mem_singleton] at hd
        rw [(Event.checkpoint.injEq _ _).mp hd]
        exact hlen
    · exact hbase d hd

/-- With a checkpoint path set and pending rows, the trace of
`process_batch` ends with the unconditional final save of the final
table. -/
theorem process_batch_final_checkpoint (ora : Oracle) (cfg : Cfg) (bs : Nat)
    (df : List Row) (h : (pendingIdx df).length ≠ 0)
    (hp : cfg.checkpoint_path = true) :
    ∃ pre, (process_batch ora cfg bs df).trace
      = pre ++ [Event.checkpoint (process_batch ora cfg bs df).df] := by
  rw [process_batch_eq ora cfg bs df h, if_pos hp]
  exact ⟨_, rfl⟩

/-- A row whose status is `"success"` is not written and gets no client
calls during the whole outer loop of `main`. -/
theorem main_loop_success_untouched (oras : Nat → Oracle) (cfg : Cfg) (bs : Nat) :
    ∀ (fuel bn : Nat) (df : List Row) (i : Nat) (r : Row),
      df.get? i = some r → r.embedded_status = "success" →
      (main_loop oras cfg bs fuel bn df).1.get? i = some r
        ∧ ∀ e ∈ (main_loop oras cfg bs fuel bn df).2, mentionsRow i e = false := by
  intro fuel
  induction fuel with
  | zero =>
    intro bn df i r hr _
    exact ⟨hr, fun e he => absurd he (List.not_mem_nil _)⟩
  | succ fuel ih =>
    intro bn df i r hr hs
    unfold main_loop
    split
    · exact ⟨hr, fun e he => absurd he (List.not_mem_nil _)⟩
    · dsimp only
      obtain ⟨h1, h2⟩ := process_batch_success_untouched (oras bn) cfg bs df i r hr hs
      split
      · exact ⟨h1, h2⟩
      · obtain ⟨h3, h4⟩ := ih (bn + 1) (process_batch (oras bn) cfg bs df).df i r h1 hs
        refine ⟨h3, ?_⟩
        intro e he
        rw [List.mem_append] at he
        rcases he with he | he
        · exact h2 e he
        · rw [List.mem_cons] at he
          rcases he with rfl | he
          · rfl
          · exact h4 e he

/-! ### The claims -/

/-- C1: a row whose tracking status is `"success"` at the start of a run
is never passed to the embedding or upload clients — neither by one
`process_batch` call nor across the whole outer loop of `main` — and
all its fields are left unchanged. -/
theorem c1_success_rows_untouched (oras : Nat → Oracle) (cfg : Cfg)
    (bs fuel bn : Nat) (df : List Row) (i : Nat) (r : Row)
    (hr : df.get? i = some r) (hs : r.embedded_status = "success") :
    ((process_batch (oras bn) cfg bs df).df.get? i = some r
      ∧ ∀ e ∈ (process_batch (oras bn) cfg bs df).trace, mentionsRow i e = false)
    ∧ ((main_loop oras cfg bs fuel bn df).1.get? i = some r
      ∧ ∀ e ∈ (main_loop oras cfg bs fuel bn df).2, mentionsRow i e = false) :=
  ⟨process_batch_success_untouched (oras bn) cfg bs df i r hr hs,
   main_loop_success_untouched oras cfg bs fuel bn df i r hr hs⟩

/-- Witness for C1 at a concrete table: row 0 of `exDf10` is `"success"`
and survives a two-batch run untouched and uncalled. -/
theorem c1_witness :
    ((process_batch oraOk cfg250 5 exDf10).df.get? 0 = some (exRow "success")
      ∧ ∀ e ∈ (process_batch oraOk cfg250 5 exDf10).trace,
          mentionsRow 0 e = false)
    ∧ ((main_loop (fun _ => oraOk) cfg250 5 2 0 exDf10).1.get? 0
          = some (exRow "success")
      ∧ ∀ e ∈ (main_loop (fun _ => oraOk) cfg250 5 2 0 exDf10).2,
          mentionsRow 0 e = false) :=
  c1_success_rows_untouched (fun _ => oraOk) cfg250 5 2 0 exDf10 0
    (exRow "success") (by decide) (by decide)

/-- C2: the batch is exactly the first `batch_size` labels, in stable
table order, among rows with status other than `"success"`; `"failed"`
rows are retried; on the 10-row example with three `"success"` rows and
batch size 5, exactly the first five of the seven others are selected,
in original order. -/
theorem c2_batch_selection (df : List Row) (bs : Nat) :
    (batchOf df bs).Pairwise (· < ·)
    ∧ (∀ i ∈ batchOf df bs, i < df.length ∧ statusAt df i ≠ "success")
    ∧ (batchOf df bs).length = min bs (pendingIdx df).length
    ∧ (∀ i ∈ pendingIdx df, i ∉ batchOf df bs → ∀ j ∈ batchOf df bs, j < i)
    ∧ (∀ i : Nat, i < df.length → statusAt df i = "failed" → i ∈ pendingIdx df)
    ∧ batchOf exDf10 5 = [1, 3, 4, 6, 7] :=
  ⟨batchOf_sorted df bs,
   fun i h => ⟨batchOf_mem_lt df bs i h, batchOf_mem_status df bs i h⟩,
   batchOf_length df bs,
   fun i hi hni => batchOf_first df bs i hi hni,
   fun i hlt hf => (pendingIdx_mem df i).mpr ⟨hlt, by rw [hf]; decide⟩,
   by decide⟩

/-- Witness for C2: instantiating the prefix property on `exDf10` with
batch size 5 — label 8 is pending but outside the batch, so every
selected label (for instance 7) precedes it. -/
theorem c2_witness : (7 : Nat) < 8 ∧ batchOf exDf10 5 = [1, 3, 4, 6, 7] :=
  ⟨(c2_batch_selection exDf10 5).2.2.2.1 8 (by decide) (by decide) 7 (by decide),
   (c2_batch_selection exDf10 5).2.2.2.2.2⟩

/-- C3: `embedded_at` is set iff the status is `"success"` or
`"failed"` (so never while `"pending"`): the invariant is established
by `init_embedding_tracking` and preserved by every per-row step of
`process_batch`, by whole batches, and by the outer loop of `main`. -/
theorem c3_processed_at_invariant (t : RawTable) (oras : Nat → Oracle)
    (ora : Oracle) (cfg : Cfg) (bs fuel bn idx : Nat) (s : BatchState)
    (df : List Row)
    (hc : rawCoherent t) (hraw : ∀ r ∈ t.rows, rawRowInv r)
    (hs : tableInv s.df) (hdf : tableInv df) :
    tableInv (init_embedding_tracking t)
    ∧ tableInv (processOne ora cfg s idx).df
    ∧ tableInv (process_batch ora cfg bs df).df
    ∧ tableInv (main_loop oras cfg bs fuel bn df).1 :=
  ⟨init_embedding_tracking_inv t hc hraw,
   processOne_tableInv ora cfg s idx hs,
   process_batch_tableInv ora cfg bs df hdf,
   main_loop_tableInv oras cfg bs fuel bn df hdf⟩

/-- Witness for C3 on concrete data: a fresh raw table and a 10-row
table with mixed statuses, run with rejected uploads. -/
theorem c3_witness :
    tableInv (init_embedding_tracking exRawTable)
    ∧ tableInv (processOne oraRej cfg250
        { df := exDf10, success_count := 0, fail_count := 0, trace := [] } 1).df
    ∧ tableInv (process_batch oraRej cfg250 5 exDf10).df
    ∧ tableInv (main_loop (fun _ => oraOk) cfg250 5 2 0 exDf10).1 :=
  c3_processed_at_invariant exRawTable (fun _ => oraOk) oraRej cfg250 5 2 0 1
    { df := exDf10, success_count := 0, fail_count := 0, trace := [] } exDf10
    (by unfold rawCoherent; decide) (by unfold rawRowInv; decide)
    (by unfold tableInv rowInv; decide) (by unfold tableInv rowInv; decide)

/-- C4: when the embedding call for a batch row returns the sentinel,
`process_batch` marks that row `"failed"` with the non-empty message
`"Embedding generation failed"` and a set timestamp, attempts no upload
for it, and still invokes the embed client for every other batch row
(the failure aborts nothing). -/
theorem c4_embedding_failure_isolated (ora : Oracle) (cfg : Cfg) (bs : Nat)
    (df : List Row) (idx : Nat) (r : Row)
    (hr : df.get? idx = some r) (hb : idx ∈ batchOf df bs)
    (hf : ora.embed idx (textToEmbed r) = .failure) :
    ((process_batch ora cfg bs df).df.get? idx
        = some { r with
            embedded_status := "failed"
            embedded_error := "Embedding generation failed"
            embedded_at := some (ora.now idx) })
    ∧ "Embedding generation failed" ≠ ""
    ∧ ((process_batch ora cfg bs df).trace.countP (isUploadFor idx) = 0)
    ∧ (∀ j ∈ batchOf df bs,
        ∃ e ∈ (process_batch ora cfg bs df).trace, isEmbedFor j e = true) := by
  have h1 := process_batch_df_get_mem ora cfg bs df idx r hb hr
  have hout : outcomeRow ora idx r
      = { r with
          embedded_status := "failed"
          embedded_error := "Embedding generation failed"
          embedded_at := some (ora.now idx) } := by
    unfold outcomeRow; rw [hf]
  refine ⟨by rw [h1, hout], by decide, ?_, ?_⟩
  · have h2 := process_batch_countP_upload ora cfg bs df idx r hb hr
    have hok : embedOkR ora idx r = false := by unfold embedOkR; rw [hf]
    rw [h2, hok]
    simp
  · intro j hj
    have h3 := process_batch_countP_embed ora cfg bs df j hj
    have hpos : 0 < (process_batch ora cfg bs df).trace.countP (isEmbedFor j) := by
      omega
    exact List.countP_pos_iff.mp hpos

/-- Witness for C4: the spec scenario — among the five batch rows of
`exDf10`, only row 4 fails to embed; it is marked failed with no upload,
and all five rows still get their embed calls. -/
theorem c4_witness :
    ((process_batch oraMix cfg250 5 exDf10).df.get? 4
        = some { exRow "failed" with
            embedded_status := "failed"
            embedded_error := "Embedding generation failed"
            embedded_at := some 3 })
    ∧ "Embedding generation failed" ≠ ""
    ∧ ((process_batch oraMix cfg250 5 exDf10).trace.countP (isUploadFor 4) = 0)
    ∧ (∀ j ∈ batchOf exDf10 5,
        ∃ e ∈ (process_batch oraMix cfg250 5 exDf10).trace,
          isEmbedFor j e = true) :=
  c4_embedding_failure_isolated oraMix cfg250 5 exDf10 4 (exRow "failed")
    (by decide) (by decide) (by decide)

/-- C5 counterexample: with one pending row whose embedding fails, the
row is processed (its embed call is in the trace) yet no rate-limit
sleep happens at all — the embedding-failure `continue` skips
`time.sleep`, contradicting "a sleep is performed after every row
regardless of outcome". -/
theorem c5_counterexample :
    (∃ e ∈ (process_batch oraFail cfg1 5 exDf1).trace, isEmbedFor 0 e = true)
    ∧ Event.sleepReq ∉ (process_batch oraFail cfg1 5 exDf1).trace := by
  refine ⟨⟨Event.embedCall 0 "t", by decide, by decide⟩, by decide⟩

/-- C5 (amended): the fixed rate-limit sleep is performed once per batch
row whose embedding succeeded (after both upload success and upload
failure), and is skipped for rows whose embedding failed: the sleeps in
a batch trace number exactly the embed-successful batch rows. -/
theorem c5_sleep_per_embedded_row (ora : Oracle) (cfg : Cfg) (bs : Nat)
    (df : List Row) :
    (process_batch ora cfg bs df).trace.countP isSleepReq
      = (batchOf df bs).countP (embedOkAt ora df) :=
  process_batch_countP_sleep ora cfg bs df

/-- C6 counterexample: with `checkpoint_every = 1` and one processed
(embedding-failed) row, the claim requires a periodic persist after
that row plus the unconditional final one — at least two saves; the
trace contains exactly one checkpoint event. -/
theorem c6_counterexample :
    (process_batch oraFail cfg1 5 exDf1).trace.countP isCheckpointEv = 1
    ∧ ¬ 2 ≤ (process_batch oraFail cfg1 5 exDf1).trace.countP isCheckpointEv := by
  refine ⟨by decide, by decide⟩

/-- C6 (amended): during a batch the table is persisted after every
`checkpoint_every`-th processed row whose embedding succeeded —
embedding-failure rows are counted toward the interval but their
iteration skips the save — and once more unconditionally at batch end;
every persisted snapshot is the whole current table (same row count as
the input, an overwrite rather than an append). -/
theorem c6_checkpoint_schedule (ora : Oracle) (cfg : Cfg) (bs : Nat)
    (df : List Row) (h : (pendingIdx df).length ≠ 0)
    (hp : cfg.checkpoint_path = true) :
    ((process_batch ora cfg bs df).trace.countP isCheckpointEv
        = cpSched ora cfg df (batchOf df bs) 0 + 1)
    ∧ (∀ d, Event.checkpoint d ∈ (process_batch ora cfg bs df).trace →
        d.length = df.length)
    ∧ (∃ pre, (process_batch ora cfg bs df).trace
        = pre ++ [Event.checkpoint (process_batch ora cfg bs df).df]) := by
  refine ⟨?_, process_batch_checkpoint_len ora cfg bs df,
    process_batch_final_checkpoint ora cfg bs df h hp⟩
  rw [process_batch_countP_checkpoint ora cfg bs df h, if_pos hp]

/-- Witness for C6 on a concrete run: one all-successful row with
interval 1 — one periodic save plus the final one. -/
theorem c6_witness :
    ((process_batch oraOk cfg1 5 exDf1).trace.countP isCheckpointEv
        = cpSched oraOk cfg1 exDf1 (batchOf exDf1 5) 0 + 1)
    ∧ (∀ d, Event.checkpoint d ∈ (process_batch oraOk cfg1 5 exDf1).trace →
        d.length = exDf1.length)
    ∧ (∃ pre, (process_batch oraOk cfg1 5 exDf1).trace
        = pre ++ [Event.checkpoint (process_batch oraOk cfg1 5 exDf1).df]) :=
  c6_checkpoint_schedule oraOk cfg1 5 exDf1 (by decide) (by decide)

/-- C7 counterexample: a 200 response whose well-formed JSON lacks the
expected `"data"`/embedding payload makes `get_embedding` raise
`KeyError` to the caller (only `RequestException` is caught), not
return the `None` sentinel as claimed. -/
theorem c7_counterexample :
    get_embedding (.response 200 (.json (.obj []))) = .raised "KeyError"
    ∧ get_embedding (.response 200 (.json (.obj []))) ≠ .ok none :=
  ⟨rfl, fun h => nomatch h⟩

/-- C7 (amended): `get_embedding` returns the `None` sentinel on every
transport error, every HTTP error status (`raise_for_status`), and an
invalid-JSON body (`JSONDecodeError` is a `RequestException`); on a
success status with well-formed JSON it either returns the extracted
payload or raises an uncaught exception — in particular a 200 response
whose JSON lacks the expected payload raises `KeyError` to the caller
rather than yielding the sentinel. -/
theorem c7_get_embedding_outcomes (msg : String) (status : Nat) (j : Json)
    (hs : status < 400) :
    get_embedding (.transportError msg) = .ok none
    ∧ (∀ st : Nat, 400 ≤ st → ∀ b : Body,
        get_embedding (.response st b) = .ok none)
    ∧ get_embedding (.response status .invalidJson) = .ok none
    ∧ ((∃ e, get_embedding (.response status (.json j)) = .raised e)
        ∨ (∃ v, get_embedding (.response status (.json j)) = .ok (some v)))
    ∧ get_embedding (.response 200 (.json (.obj []))) = .raised "KeyError" := by
  refine ⟨rfl, ?_, ?_, ?_, rfl⟩
  · intro st hst b
    unfold get_embedding
    dsimp only
    rw [if_pos hst]
  · unfold get_embedding
    dsimp only
    rw [if_neg (by omega)]
  · unfold get_embedding
    dsimp only
    rw [if_neg (by omega)]
    cases h1 : jsonGetKey j "data" with
    | raised e =>
      refine Or.inl ⟨e, ?_⟩
      dsimp only
    | ok d =>
      dsimp only
      cases h2 : jsonGetIdx d 0 with
      | raised e =>
        refine Or.inl ⟨e, ?_⟩
        dsimp only
      | ok d0 =>
        dsimp only
        cases h3 : jsonGetKey d0 "embedding" with
        | raised e =>
          refine Or.inl ⟨e, ?_⟩
          dsimp only
        | ok emb =>
          refine Or.inr ⟨emb, ?_⟩
          dsimp only

/-- Witness for the amended C7 at concrete inputs. -/
theorem c7_witness :
    get_embedding (.transportError "conn reset") = .ok none
    ∧ (∀ st : Nat, 400 ≤ st → ∀ b : Body,
        get_embedding (.response st b) = .ok none)
    ∧ get_embedding (.response 200 .invalidJson) = .ok none
    ∧ ((∃ e, get_embedding (.response 200 (.json (.obj []))) = .raised e)
        ∨ (∃ v, get_embedding (.response 200 (.json (.obj []))) = .ok (some v)))
    ∧ get_embedding (.response 200 (.json (.obj []))) = .raised "KeyError" :=
  c7_get_embedding_outcomes "conn reset" 200 (.obj []) (by omega)

/-- C8 counterexample: the normalization step the pipeline applies
(`format_datetime_column`) does not leave an offset-carrying value
unchanged with its original offset: on `"2024-11-01T10:00:00+02:00"`
it raises (a tz-aware series cannot be `tz_localize`d) instead of
passing the string through. -/
theorem c8_counterexample :
    format_datetime_column ["2024-11-01T10:00:00+02:00"] = .raised "TypeError"
    ∧ format_datetime_column ["2024-11-01T10:00:00+02:00"]
        ≠ .ok [some "2024-11-01T10:00:00+02:00"] :=
  ⟨rfl, fun h => nomatch h⟩

/-- C8 (amended): the pipeline's datetime normalization renders
timezone-naive values in the fixed `YYYY-MM-DDTHH:MM:SSZ` profile
treating them as UTC (`"2024-11-01"` becomes
`"2024-11-01T00:00:00Z"`), and turns failing conversions into the null
marker without aborting; but a value carrying a timezone offset is not
left unchanged — the column step raises on tz-aware input. The
exported string-level helper `format_datetime_for_azure`, which the
pipeline does not invoke, is the one that keeps offset-carrying
strings unchanged. -/
theorem c8_datetime_normalization (col : List String) :
    format_datetime_column ["2024-11-01"] = .ok [some "2024-11-01T00:00:00Z"]
    ∧ format_datetime_column ["not-a-date", "2024-11-01"]
        = .ok [none, some "2024-11-01T00:00:00Z"]
    ∧ ((col.map to_datetime).any ParsedDt.isAware = true →
        format_datetime_column col = .raised "TypeError")
    ∧ ((col.map to_datetime).any ParsedDt.isAware = false →
        ∃ out, format_datetime_column col = .ok out
          ∧ out.length = col.length)
    ∧ format_datetime_for_azure "2024-11-01T10:00:00+02:00"
        = "2024-11-01T10:00:00+02:00" := by
  refine ⟨rfl, rfl, ?_, ?_, by decide⟩
  · intro h
    unfold format_datetime_column
    dsimp only
    rw [if_pos h]
  · intro h
    unfold format_datetime_column
    dsimp only
    rw [if_neg (by simp [h])]
    exact ⟨_, rfl, by simp⟩

/-- Witness for the amended C8, instantiated on the offset-carrying
column. -/
theorem c8_witness :
    format_datetime_column ["2024-11-01T10:00:00+02:00"] = .raised "TypeError"
    ∧ format_datetime_column ["2024-11-01"]
        = .ok [some "2024-11-01T00:00:00Z"] :=
  ⟨(c8_datetime_normalization ["2024-11-01T10:00:00+02:00"]).2.2.1 (by decide),
   (c8_datetime_normalization ["2024-11-01"]).1⟩

/-- C9: for a batch row whose embedding succeeded: a rejected upload
marks it `"failed"` with a fixed non-empty message of at most 2000
characters; an upload exception marks it `"failed"` storing `str(e)`
truncated to at most 2000 characters; a successful upload marks it
`"success"` and clears the error; and in every case the embed client is
invoked exactly once for that row within the attempt. -/
theorem c9_upload_failure_handling (ora : Oracle) (cfg : Cfg) (bs : Nat)
    (df : List Row) (idx : Nat) (r : Row) (emb : List Int)
    (hr : df.get? idx = some r) (hb : idx ∈ batchOf df bs)
    (he : ora.embed idx (textToEmbed r) = .ok emb) :
    (ora.upload idx = .rejected →
      (process_batch ora cfg bs df).df.get? idx
        = some { r with
            embedded_status := "failed"
            embedded_error := "Upload to Azure Search failed"
            embedded_at := some (ora.now idx) }
      ∧ "Upload to Azure Search failed" ≠ ""
      ∧ ("Upload to Azure Search failed" : String).length ≤ 2000)
    ∧ (∀ msg, ora.upload idx = .exn msg →
      (process_batch ora cfg bs df).df.get? idx
        = some { r with
            embedded_status := "failed"
            embedded_error := pySlice msg 2000
            embedded_at := some (ora.now idx) }
      ∧ (pySlice msg 2000).length ≤ 2000)
    ∧ (ora.upload idx = .ok →
      (process_batch ora cfg bs df).df.get? idx
        = some { r with
            embedded_status := "success"
            embedded_error := ""
            embedded_at := some (ora.now idx) })
    ∧ (process_batch ora cfg bs df).trace.countP (isEmbedFor idx) = 1 := by
  have h1 := process_batch_df_get_mem ora cfg bs df idx r hb hr
  refine ⟨?_, ?_, ?_, process_batch_countP_embed ora cfg bs df idx hb⟩
  · intro hu
    have hout : outcomeRow ora idx r
        = { r with
            embedded_status := "failed"
            embedded_error := "Upload to Azure Search failed"
            embedded_at := some (ora.now idx) } := by
      unfold outcomeRow; rw [he, hu]
    exact ⟨by rw [h1, hout], by decide, by decide⟩
  · intro msg hu
    have hout : outcomeRow ora idx r
        = { r with
            embedded_status := "failed"
            embedded_error := pySlice msg 2000
            embedded_at := some (ora.now idx) } := by
      unfold outcomeRow; rw [he, hu]
    refine ⟨by rw [h1, hout], ?_⟩
    unfold pySlice
    show (msg.data.take 2000).length ≤ 2000
    exact List.length_take_le 2000 msg.data
  · intro hu
    have hout : outcomeRow ora idx r
        = { r with
            embedded_status := "success"
            embedded_error := ""
            embedded_at := some (ora.now idx) } := by
      unfold outcomeRow; rw [he, hu]
    rw [h1, hout]

/-- Witness for C9: row 1 of `exDf10` under a rejected upload, an upload
exception, and a successful upload. -/
theorem c9_witness :
    ((process_batch oraRej cfg250 5 exDf10).df.get? 1
        = some { exRow "pending" with
            embedded_status := "failed"
            embedded_error := "Upload to Azure Search failed"
            embedded_at := some 3 }
      ∧ "Upload to Azure Search failed" ≠ ""
      ∧ ("Upload to Azure Search failed" : String).length ≤ 2000)
    ∧ ((process_batch oraExn cfg250 5 exDf10).df.get? 1
        = some { exRow "pending" with
            embedded_status := "failed"
            embedded_error := pySlice "boom" 2000
            embedded_at := some 3 }
      ∧ (pySlice "boom" 2000).length ≤ 2000)
    ∧ ((process_batch oraOk cfg250 5 exDf10).df.get? 1
        = some { exRow "pending" with
            embedded_status := "success"
            embedded_error := ""
            embedded_at := some 3 })
    ∧ (process_batch oraRej cfg250 5 exDf10).trace.countP (isEmbedFor 1) = 1 :=
  ⟨(c9_upload_failure_handling oraRej cfg250 5 exDf10 1 (exRow "pending") [1]
      (by decide) (by decide) (by decide)).1 (by decide),
   (c9_upload_failure_handling oraExn cfg250 5 exDf10 1 (exRow "pending") [1]
      (by decide) (by decide) (by decide)).2.1 "boom" (by decide),
   (c9_upload_failure_handling oraOk cfg250 5 exDf10 1 (exRow "pending") [1]
      (by decide) (by decide) (by decide)).2.2.1 (by decide),
   (c9_upload_failure_handling oraRej cfg250 5 exDf10 1 (exRow "pending") [1]
      (by decide) (by decide) (by decide)).2.2.2⟩

/-- C10: a `--resume` run with no checkpoint file at the configured
path does not fail: `load_checkpoint` returns the absent sentinel and
`main` falls back to loading from the configured source, exactly as a
non-resume run would. -/
theorem c10_resume_missing_checkpoint (fs : String → Option RawTable)
    (cp : String) (src : RawTable) (h : fs cp = none) :
    load_checkpoint fs cp = none
    ∧ main_load_data true fs cp src = src
    ∧ main_load_data true fs cp src = main_load_data false fs cp src := by
  unfold main_load_data load_checkpoint
  rw [h]
  exact ⟨rfl, rfl, rfl⟩

/-- Witness for C10 on the empty file system. -/
theorem c10_witness :
    load_checkpoint fsEmpty "checkpoint.parquet" = none
    ∧ main_load_data true fsEmpty "checkpoint.parquet" exRawTable = exRawTable
    ∧ main_load_data true fsEmpty "checkpoint.parquet" exRawTable
        = main_load_data false fsEmpty "checkpoint.parquet" exRawTable :=
  c10_resume_missing_checkpoint fsEmpty "checkpoint.parquet" exRawTable rfl

end TextEmbeddings
